import Mathlib

/-!
Verification of the contact worker (`src/workers/contact-worker.js`).

The worker is modelled shallowly: JavaScript strings become `List Char`,
the two process-wide `Map`s become functions into `Option`, `Date.now()`
becomes an explicit `now : Nat` argument (milliseconds), and the
`fetch` handler becomes a pure function from a request, environment,
upstream outcome and state to a response, a new state and the list of
outbound upstream requests it issued.
-/

namespace ContactWorker

/-- JavaScript strings are modelled as lists of unicode characters. -/
abbrev JStr := List Char

/-- The JavaScript whitespace class: the characters matched by `\s` in a
regular expression and removed by `String.prototype.trim` (space, tab,
line terminators, and the unicode space separators). -/
def isWs (c : Char) : Bool :=
  c == ' ' || c == '\t' || c == '\n' || c == '\r' || c == '\u000B' || c == '\u000C' ||
  c == '\u00A0' || c == '\u1680' || ('\u2000' ≤ c && c ≤ '\u200A') ||
  c == '\u2028' || c == '\u2029' || c == '\u202F' || c == '\u205F' || c == '\u3000' ||
  c == '\uFEFF'

/-- Drop leading whitespace (the left half of `String.prototype.trim`). -/
def trimLeft (l : JStr) : JStr := l.dropWhile isWs

/-- Drop trailing whitespace (the right half of `String.prototype.trim`). -/
def trimRight (l : JStr) : JStr := (l.reverse.dropWhile isWs).reverse

/-- `String.prototype.trim`: drop leading and trailing whitespace. -/
def trim (l : JStr) : JStr := trimRight (trimLeft l)

theorem dropWhile_length_le {α : Type} (p : α → Bool) :
    ∀ l : List α, (l.dropWhile p).length ≤ l.length
  | [] => Nat.le_refl 0
  | a :: l => by
    rw [List.dropWhile_cons]
    split
    · exact Nat.le_succ_of_le (dropWhile_length_le p l)
    · exact Nat.le_refl _

/-- The streaming core of `.replace(/\s+/g, ' ')`: scan the string left to
right; the first whitespace character of a run is replaced by a single
space and the rest of the run (tracked by the `skipping` flag) is
discarded. -/
def collapseAux : Bool → JStr → JStr
  | _, [] => []
  | skipping, c :: rest =>
    if isWs c then
      if skipping then collapseAux true rest else ' ' :: collapseAux true rest
    else c :: collapseAux false rest

/-- `.replace(/\s+/g, ' ')`: replace every maximal run of whitespace
characters by a single space. -/
def collapse (l : JStr) : JStr := collapseAux false l

/-- The string core of `sanitizeText`:
`s.trim().replace(/\s+/g, ' ').slice(0, max)`. -/
def sanitizeStr (l : JStr) (max : Nat) : JStr := (collapse (trim l)).take max

/-- Whether a string starts with a whitespace character. -/
def headIsWs : JStr → Bool
  | [] => false
  | c :: _ => isWs c

/-- Every whitespace character in the string is a single space that is
followed by a non-whitespace character or by the end of the string.
This is the shape `collapse` produces. -/
def spacedOk : JStr → Bool
  | [] => true
  | c :: rest => (!(isWs c) || (c == ' ' && !(headIsWs rest))) && spacedOk rest

theorem headIsWs_dropWhile (l : JStr) : headIsWs (l.dropWhile isWs) = false := by
  induction l with
  | nil => rfl
  | cons c rest ih =>
    rw [List.dropWhile_cons]
    by_cases h : isWs c
    · rw [if_pos h]; exact ih
    · rw [if_neg h]; simpa [headIsWs] using h

theorem dropWhile_of_headNotWs {l : JStr} (h : headIsWs l = false) :
    l.dropWhile isWs = l := by
  cases l with
  | nil => rfl
  | cons c rest =>
    simp only [headIsWs] at h
    rw [List.dropWhile_cons, if_neg]
    simp [h]

theorem headIsWs_collapseAux_true (l : JStr) : headIsWs (collapseAux true l) = false := by
  induction l with
  | nil => rfl
  | cons c rest ih =>
    rw [collapseAux]
    by_cases h : isWs c
    · rw [if_pos h, if_pos rfl]; exact ih
    · rw [if_neg h]; simpa [headIsWs] using h

theorem headIsWs_collapse (l : JStr) : headIsWs (collapse l) = headIsWs l := by
  cases l with
  | nil => rfl
  | cons c rest =>
    rw [collapse, collapseAux]
    by_cases h : isWs c
    · rw [if_pos h, if_neg (by simp)]
      simp [headIsWs, h]
      decide
    · rw [if_neg h]
      simp [headIsWs]

theorem spacedOk_collapseAux (b : Bool) (l : JStr) : spacedOk (collapseAux b l) = true := by
  induction l generalizing b with
  | nil => rfl
  | cons c rest ih =>
    rw [collapseAux]
    by_cases h : isWs c
    · rw [if_pos h]
      cases b with
      | true => simpa using ih true
      | false =>
        rw [if_neg (by simp), spacedOk]
        simp [headIsWs_collapseAux_true, ih true]
    · rw [if_neg h, spacedOk]
      simp [h, ih false]

theorem spacedOk_collapse (l : JStr) : spacedOk (collapse l) = true :=
  spacedOk_collapseAux false l

theorem collapseAux_of_spacedOk : ∀ l : JStr, spacedOk l = true →
    collapseAux false l = l ∧ (headIsWs l = false → collapseAux true l = l)
  | [], _ => ⟨rfl, fun _ => rfl⟩
  | c :: rest, h => by
    rw [spacedOk, Bool.and_eq_true, Bool.or_eq_true] at h
    obtain ⟨h1, h2⟩ := h
    obtain ⟨ihf, iht⟩ := collapseAux_of_spacedOk rest h2
    constructor
    · rw [collapseAux]
      rcases h1 with h1 | h1
      · rw [if_neg (by simpa using h1), ihf]
      · rw [Bool.and_eq_true, beq_iff_eq] at h1
        obtain ⟨hc, hr⟩ := h1
        subst hc
        rw [if_pos (by decide), if_neg (by simp), iht (by simpa using hr)]
    · intro hh
      rw [headIsWs] at hh
      rw [collapseAux, if_neg (by simp [hh]), ihf]

theorem collapse_of_spacedOk (l : JStr) (h : spacedOk l = true) : collapse l = l :=
  (collapseAux_of_spacedOk l h).1

theorem headIsWs_take (n : Nat) {l : JStr} (h : headIsWs l = false) :
    headIsWs (l.take n) = false := by
  cases l with
  | nil => simp [headIsWs]
  | cons c rest =>
    cases n with
    | zero => rfl
    | succ n => simpa [headIsWs] using h

theorem spacedOk_take : ∀ (l : JStr) (n : Nat), spacedOk l = true → spacedOk (l.take n) = true
  | [], _, _ => by simp [spacedOk]
  | _ :: _, 0, _ => rfl
  | c :: rest, n + 1, h => by
    rw [spacedOk, Bool.and_eq_true, Bool.or_eq_true] at h
    obtain ⟨h1, h2⟩ := h
    rw [List.take_succ_cons, spacedOk, Bool.and_eq_true, Bool.or_eq_true]
    refine ⟨?_, spacedOk_take rest n h2⟩
    rcases h1 with h1 | h1
    · exact Or.inl h1
    · rw [Bool.and_eq_true] at h1
      obtain ⟨hc, hr⟩ := h1
      refine Or.inr ?_
      rw [Bool.and_eq_true]
      refine ⟨hc, ?_⟩
      have := headIsWs_take (l := rest) n (by simpa using hr)
      simpa using this

theorem trimRight_of_nil (c : Char) (t : JStr) (h : trimRight t = []) :
    trimRight (c :: t) = if isWs c then [] else [c] := by
  unfold trimRight at h ⊢
  rw [List.reverse_eq_nil_iff] at h
  rw [List.reverse_cons, List.dropWhile_append, h]
  by_cases hc : isWs c <;> simp [List.dropWhile_cons, hc]

theorem trimRight_of_ne_nil (c : Char) (t : JStr) (h : trimRight t ≠ []) :
    trimRight (c :: t) = c :: trimRight t := by
  unfold trimRight at h ⊢
  rw [ne_eq, List.reverse_eq_nil_iff] at h
  rw [List.reverse_cons, List.dropWhile_append,
    if_neg (by simpa [List.isEmpty_iff] using h), List.reverse_append]
  rfl

theorem headIsWs_trimRight : ∀ {l : JStr}, headIsWs l = false → headIsWs (trimRight l) = false
  | [], _ => rfl
  | c :: t, h => by
    rw [headIsWs] at h
    by_cases ht : trimRight t = []
    · rw [trimRight_of_nil c t ht, if_neg (by simp [h])]
      simpa [headIsWs] using h
    · rw [trimRight_of_ne_nil c t ht]
      simpa [headIsWs] using h

theorem spacedOk_trimRight : ∀ (l : JStr), spacedOk l = true → spacedOk (trimRight l) = true
  | [], _ => rfl
  | c :: t, h => by
    rw [spacedOk, Bool.and_eq_true, Bool.or_eq_true] at h
    obtain ⟨h1, h2⟩ := h
    have ih := spacedOk_trimRight t h2
    by_cases ht : trimRight t = []
    · rw [trimRight_of_nil c t ht]
      by_cases hc : isWs c
      · rw [if_pos hc]; rfl
      · rw [if_neg hc, spacedOk]; simp [hc, spacedOk]
    · rw [trimRight_of_ne_nil c t ht, spacedOk, Bool.and_eq_true, Bool.or_eq_true]
      refine ⟨?_, ih⟩
      rcases h1 with h1 | h1
      · exact Or.inl h1
      · rw [Bool.and_eq_true] at h1
        refine Or.inr ?_
        rw [Bool.and_eq_true]
        refine ⟨h1.1, ?_⟩
        have := headIsWs_trimRight (l := t) (by simpa using h1.2)
        simpa using this

theorem trimRight_length_le (l : JStr) : (trimRight l).length ≤ l.length := by
  unfold trimRight
  rw [List.length_reverse]
  calc (l.reverse.dropWhile isWs).length ≤ l.reverse.length := dropWhile_length_le isWs l.reverse
  _ = l.length := List.length_reverse l

theorem sanitizeStr_length_le (l : JStr) (n : Nat) : (sanitizeStr l n).length ≤ n :=
  List.length_take_le n _

theorem headIsWs_sanitizeStr (l : JStr) (n : Nat) : headIsWs (sanitizeStr l n) = false := by
  refine headIsWs_take n ?_
  rw [headIsWs_collapse]
  exact headIsWs_trimRight (headIsWs_dropWhile l)

theorem spacedOk_sanitizeStr (l : JStr) (n : Nat) : spacedOk (sanitizeStr l n) = true :=
  spacedOk_take _ n (spacedOk_collapse _)

/-- Applying the sanitizer a second time only removes the trailing space
that truncation may have produced. -/
theorem sanitizeStr_sanitizeStr (l : JStr) (n : Nat) :
    sanitizeStr (sanitizeStr l n) n = trimRight (sanitizeStr l n) := by
  have h1 : headIsWs (sanitizeStr l n) = false := headIsWs_sanitizeStr l n
  have h2 : spacedOk (sanitizeStr l n) = true := spacedOk_sanitizeStr l n
  have htl : trimLeft (sanitizeStr l n) = sanitizeStr l n := dropWhile_of_headNotWs h1
  have htr : spacedOk (trimRight (sanitizeStr l n)) = true := spacedOk_trimRight _ h2
  have hc : collapse (trimRight (sanitizeStr l n)) = trimRight (sanitizeStr l n) :=
    collapse_of_spacedOk _ htr
  have hlen : (trimRight (sanitizeStr l n)).length ≤ n :=
    le_trans (trimRight_length_le _) (sanitizeStr_length_le l n)
  show (collapse (trim (sanitizeStr l n))).take n = trimRight (sanitizeStr l n)
  rw [trim, htl, hc, List.take_of_length_le hlen]

/-- When the sanitized string does not end in whitespace the sanitizer is
idempotent on it. -/
theorem sanitizeStr_idem_of_no_trailing (l : JStr) (n : Nat)
    (h : headIsWs (sanitizeStr l n).reverse = false) :
    sanitizeStr (sanitizeStr l n) n = sanitizeStr l n := by
  rw [sanitizeStr_sanitizeStr]
  unfold trimRight
  rw [dropWhile_of_headNotWs h, List.reverse_reverse]

/-- JavaScript values as far as the worker observes them: the result of
`await request.json()` and the field values the validator reads.
Numbers are modelled as integers (the float-only values NaN and
Infinity are not modelled). -/
inductive JsValue where
  | undefined : JsValue
  | nullv : JsValue
  | bool : Bool → JsValue
  | num : Int → JsValue
  | str : JStr → JsValue
  | arr : List JsValue → JsValue
  | obj : List (String × JsValue) → JsValue

/-- JavaScript truthiness (`!v` is the negation of this). -/
def truthy : JsValue → Bool
  | .undefined => false
  | .nullv => false
  | .bool b => b
  | .num n => !(n == 0)
  | .str s => !s.isEmpty
  | .arr _ => true
  | .obj _ => true

/-- Whether `typeof v === 'object'` holds (true for null, arrays and
objects). -/
def isObjectType : JsValue → Bool
  | .nullv => true
  | .arr _ => true
  | .obj _ => true
  | _ => false

mutual

/-- The `String(...)` coercion. -/
def jsToString : JsValue → JStr
  | .undefined => ("undefined".toList)
  | .nullv => ("null".toList)
  | .bool true => ("true".toList)
  | .bool false => ("false".toList)
  | .num n => (toString n).toList
  | .str s => s
  | .obj _ => ("[object Object]".toList)
  | .arr elems => jsArrToString elems
termination_by structural v => v

/-- `Array.prototype.toString`, i.e. `join(',')`: elements separated by
commas, null and undefined elements rendered as empty strings. -/
def jsArrToString : List JsValue → JStr
  | [] => []
  | [.undefined] => []
  | [.nullv] => []
  | [e] => jsToString e
  | .undefined :: r :: rs => ',' :: jsArrToString (r :: rs)
  | .nullv :: r :: rs => ',' :: jsArrToString (r :: rs)
  | e :: r :: rs => jsToString e ++ ',' :: jsArrToString (r :: rs)
termination_by structural l => l

end

/-- The `value ?? ''` default applied by `sanitizeText` before coercion. -/
def coalesceEmpty : JsValue → JsValue
  | .undefined => .str []
  | .nullv => .str []
  | v => v

/-- `sanitizeText(value, max)` from the worker:
`String(value ?? '').trim().replace(/\s+/g, ' ').slice(0, max)`. -/
def sanitizeText (v : JsValue) (max : Nat) : JStr :=
  sanitizeStr (jsToString (coalesceEmpty v)) max

/-- Property read `v[key]` on a JavaScript value: objects yield the named
field, everything else yields undefined. -/
def getField (v : JsValue) (key : String) : JsValue :=
  match v with
  | .obj fields =>
    match fields.find? (fun f => f.1 == key) with
    | some f => f.2
    | none => .undefined
  | _ => .undefined

/-- A character allowed in the local part, domain labels and TLD of the
email pattern: not whitespace and not `@` (the regex class `[^\s@]`). -/
def emailChar (c : Char) : Bool := !(isWs c) && !(c == '@')

/-- Executable matcher for `/^[^\s@]+@[^\s@]+\.[^\s@]+$/`: split at the
first `@`, require a non-empty all-`emailChar` part before it, a
non-empty all-`emailChar` part after it (which in particular forbids a
second `@`), and a `.` strictly inside the part after the `@`. -/
def emailOk (s : JStr) : Bool :=
  let l := s.takeWhile (fun c => !(c == '@'))
  match s.dropWhile (fun c => !(c == '@')) with
  | [] => false
  | _ :: r =>
    !l.isEmpty && l.all emailChar && !r.isEmpty && r.all emailChar &&
      ((r.drop 1).dropLast.contains '.')

/-- The email shape the specification describes: one-or-more
non-whitespace-non-`@` characters, `@`, one-or-more such characters,
`.`, one-or-more such characters. Stated from the specification's words
for comparison with the executable matcher `emailOk`. -/
def emailSpecPattern (s : JStr) : Prop :=
  ∃ a b c : JStr, a ≠ [] ∧ b ≠ [] ∧ c ≠ [] ∧
    (∀ ch ∈ a, emailChar ch = true) ∧ (∀ ch ∈ b, emailChar ch = true) ∧
    (∀ ch ∈ c, emailChar ch = true) ∧
    s = a ++ '@' :: (b ++ '.' :: c)

/-- The six sanitized fields of a contact submission. -/
structure Payload where
  requestId : JStr
  name : JStr
  email : JStr
  subject : JStr
  message : JStr
  timestamp : JStr
deriving DecidableEq

/-- The sanitized field tuple `validateBody` builds from a body that
passed the object check. -/
def buildPayload (body : JsValue) : Payload where
  requestId := sanitizeText (getField body ("requestId")) 120
  name := sanitizeText (getField body ("name")) 120
  email := sanitizeText (getField body ("email")) 160
  subject := sanitizeText (getField body ("subject")) 180
  message := sanitizeText (getField body ("message")) 4000
  timestamp := sanitizeText (getField body ("timestamp")) 80

def invalidPayloadMsg : JStr := ("Invalid payload.".toList)
def missingFieldsMsg : JStr := ("Missing required fields.".toList)
def invalidEmailMsg : JStr := ("Invalid email.".toList)

/-- Whether some required field of the payload sanitized to the empty
string. -/
def anyFieldMissing (p : Payload) : Bool :=
  p.requestId.isEmpty || p.name.isEmpty || p.email.isEmpty || p.subject.isEmpty ||
    p.message.isEmpty || p.timestamp.isEmpty

/-- `validateBody` from the worker. -/
def validateBody (body : JsValue) : Except JStr Payload :=
  if !(truthy body) || !(isObjectType body) then .error invalidPayloadMsg
  else
    let payload := buildPayload body
    if anyFieldMissing payload then .error missingFieldsMsg
    else if !(emailOk payload.email) then .error invalidEmailMsg
    else .ok payload

/-- Functional model of a JavaScript `Map` keyed by strings. -/
abbrev JMap (α : Type) := JStr → Option α

/-- `map.set(k, v)`. -/
def mapSet {α : Type} (m : JMap α) (k : JStr) (v : α) : JMap α :=
  fun k' => if k' = k then some v else m k'

/-- `map.delete(k)`. -/
def mapDel {α : Type} (m : JMap α) (k : JStr) : JMap α :=
  fun k' => if k' = k then none else m k'

/-- The empty map both stores start from. -/
def emptyMap {α : Type} : JMap α := fun _ => none

def RATE_WINDOW_MS : Nat := 60000
def RATE_MAX : Nat := 5
def IDEMPOTENCY_TTL_MS : Nat := 600000

/-- A rate-limit bucket: `{count, resetAt}`. -/
structure Bucket where
  count : Nat
  resetAt : Nat
deriving DecidableEq

/-- `rateLimited(clientKey)` from the worker, with `Date.now()` passed in
explicitly; returns the boolean answer and the updated bucket map. -/
def rateLimited (now : Nat) (clientKey : JStr) (m : JMap Bucket) : Bool × JMap Bucket :=
  match m clientKey with
  | none => (false, mapSet m clientKey ⟨1, now + RATE_WINDOW_MS⟩)
  | some existing =>
    if now > existing.resetAt then
      (false, mapSet m clientKey ⟨1, now + RATE_WINDOW_MS⟩)
    else if existing.count ≥ RATE_MAX then
      (true, m)
    else
      (false, mapSet m clientKey ⟨existing.count + 1, existing.resetAt⟩)

/-- Run a sequence of rate-limiter calls, each given as a `(now, key)`
pair, threading the bucket map through. -/
def runCalls : List (Nat × JStr) → JMap Bucket → JMap Bucket
  | [], m => m
  | (now, k) :: rest, m => runCalls rest (rateLimited now k m).2

/-- How many rate-limit slots a client has used in its current window:
the stored count, or zero if there is no live bucket. -/
def windowCount (now : Nat) (clientKey : JStr) (m : JMap Bucket) : Nat :=
  match m clientKey with
  | none => 0
  | some b => if now > b.resetAt then 0 else b.count

/-- An idempotency record: the spread `{...data, expiresAt}` stored by
`setIdempotent`, where `data` is always `{status: 'accepted'}`. -/
structure IdemRecord where
  status : JStr
  expiresAt : Nat
deriving DecidableEq

/-- `getIdempotent(requestId)` from the worker: returns the record (or
none) and the possibly-pruned store. -/
def getIdempotent (now : Nat) (requestId : JStr) (m : JMap IdemRecord) :
    Option IdemRecord × JMap IdemRecord :=
  match m requestId with
  | none => (none, m)
  | some existing =>
    if now > existing.expiresAt then (none, mapDel m requestId)
    else (some existing, m)

/-- `setIdempotent(requestId, data)` from the worker. -/
def setIdempotent (now : Nat) (requestId : JStr) (status : JStr)
    (m : JMap IdemRecord) : JMap IdemRecord :=
  mapSet m requestId ⟨status, now + IDEMPOTENCY_TTL_MS⟩

/-- The environment bindings the worker reads. `none` models an unset
variable. -/
structure Env where
  CONTACT_API_ENDPOINT : JStr
  CONTACT_API_KEY : JStr
  ALLOWED_ORIGINS : Option JStr

/-- `String.prototype.split(',')`. -/
def splitComma : JStr → List JStr
  | [] => [[]]
  | c :: rest =>
    if c = ',' then [] :: splitComma rest
    else
      match splitComma rest with
      | [] => [[c]]
      | p :: ps => (c :: p) :: ps

/-- `getAllowedOrigins(env)`:
`String(env.ALLOWED_ORIGINS || '').split(',').map(trim).filter(Boolean)`. -/
def getAllowedOrigins (env : Env) : List JStr :=
  ((splitComma (env.ALLOWED_ORIGINS.getD [])).map trim).filter (fun v => !v.isEmpty)

/-- `allowedOrigin(origin, env)`: an absent or empty `Origin` header is
refused, otherwise exact membership in the allow-list. -/
def allowedOrigin (origin : Option JStr) (env : Env) : Bool :=
  match origin with
  | none => false
  | some o => if o.isEmpty then false else (getAllowedOrigins env).contains o

def acaoKey : JStr := ("access-control-allow-origin".toList)
def varyKey : JStr := ("vary".toList)

/-- `cors(origin)`: the CORS response headers. -/
def cors (origin : JStr) : List (JStr × JStr) :=
  [(acaoKey, origin),
   (("access-control-allow-methods".toList), ("POST, OPTIONS".toList)),
   (("access-control-allow-headers".toList), ("content-type".toList)),
   (varyKey, ("Origin".toList))]

/-- The JSON bodies the worker ever sends, by shape. -/
inductive RBody where
  | empty : RBody
  | err : JStr → RBody
  | errRetryable : JStr → RBody
  | okStatus : (status : JStr) → (requestId : JStr) → RBody
deriving DecidableEq

/-- A client-facing HTTP response. -/
structure HResponse where
  status : Nat
  headers : List (JStr × JStr)
  body : RBody
deriving DecidableEq

/-- `json(data, status, extraHeaders)` from the worker. -/
def json (data : RBody) (status : Nat) (extraHeaders : List (JStr × JStr)) : HResponse :=
  ⟨status, (("content-type".toList), ("application/json; charset=utf-8".toList)) :: extraHeaders, data⟩

/-- An incoming request as the worker observes it: pathname, method, the
two headers it reads, and the result of `await request.json()` (`none`
models a body that is not valid JSON). -/
structure Request where
  path : JStr
  method : JStr
  origin : Option JStr
  cfip : Option JStr
  body : Option JsValue

/-- The worker's process-wide mutable state: the rate-limit buckets and
the idempotency store. -/
structure WState where
  rate : JMap Bucket
  idem : JMap IdemRecord

/-- The observable behavior of the upstream endpoint for this request:
a success status, a non-success status, or a transport exception. -/
inductive UpstreamOutcome where
  | ok : UpstreamOutcome
  | httpFail : UpstreamOutcome
  | throws : UpstreamOutcome

/-- The outbound `fetch` the worker issues to the upstream API. -/
structure OutboundRequest where
  url : JStr
  method : JStr
  contentType : JStr
  authorization : JStr
  idemKey : JStr
  body : Payload
deriving DecidableEq

/-- Everything one `fetch` invocation produces: the response, the new
process state and the outbound upstream requests issued. -/
structure FetchResult where
  resp : HResponse
  state : WState
  sent : List OutboundRequest

def notFoundMsg : JStr := ("Not found.".toList)
def methodMsg : JStr := ("Method not allowed.".toList)
def originMsg : JStr := ("Origin not allowed.".toList)
def rateMsg : JStr := ("Rate limit exceeded.".toList)
def invalidJsonMsg : JStr := ("Invalid JSON.".toList)
def upstreamErrMsg : JStr := ("Unable to process message.".toList)
def transportErrMsg : JStr := ("Upstream transport failed.".toList)
def acceptedStatus : JStr := ("accepted".toList)
def duplicateStatus : JStr := ("duplicate".toList)

/-- `request.headers.get('CF-Connecting-IP') || 'unknown'`. -/
def clientIp (req : Request) : JStr :=
  match req.cfip with
  | none => ("unknown".toList)
  | some v => if v.isEmpty then ("unknown".toList) else v

/-- The outbound request the dispatch stage sends for a payload. -/
def outboundFor (env : Env) (payload : Payload) : OutboundRequest :=
  ⟨env.CONTACT_API_ENDPOINT, ("POST".toList),
   ("application/json".toList),
   (("Bearer ".toList) ++ env.CONTACT_API_KEY),
   payload.requestId, payload⟩

/-- The worker's exported `fetch` handler, with `Date.now()` passed in as
`now` and the upstream's behavior as `up`. -/
def handleFetch (now : Nat) (req : Request) (env : Env) (up : UpstreamOutcome)
    (s : WState) : FetchResult :=
  if req.path ≠ ("/contact".toList) then
    ⟨json (.err notFoundMsg) 404 [], s, []⟩
  else if req.method = ("OPTIONS".toList) then
    if !(allowedOrigin req.origin env) then ⟨json (.err originMsg) 403 [], s, []⟩
    else ⟨⟨204, cors (req.origin.getD []), .empty⟩, s, []⟩
  else if req.method ≠ ("POST".toList) then
    ⟨json (.err methodMsg) 405 [], s, []⟩
  else if !(allowedOrigin req.origin env) then
    ⟨json (.err originMsg) 403 [], s, []⟩
  else
    let origin := req.origin.getD []
    let rl := rateLimited now (clientIp req) s.rate
    let s1 : WState := ⟨rl.2, s.idem⟩
    if rl.1 then ⟨json (.err rateMsg) 429 (cors origin), s1, []⟩
    else
      match req.body with
      | none => ⟨json (.err invalidJsonMsg) 400 (cors origin), s1, []⟩
      | some body =>
        match validateBody body with
        | .error e => ⟨json (.err e) 400 (cors origin), s1, []⟩
        | .ok payload =>
          let gi := getIdempotent now payload.requestId s1.idem
          let s2 : WState := ⟨s1.rate, gi.2⟩
          match gi.1 with
          | some _ =>
            ⟨json (.okStatus duplicateStatus payload.requestId) 200 (cors origin), s2, []⟩
          | none =>
            let out := outboundFor env payload
            match up with
            | .httpFail =>
              ⟨json (.errRetryable upstreamErrMsg) 502 (cors origin), s2, [out]⟩
            | .throws =>
              ⟨json (.errRetryable transportErrMsg) 502 (cors origin), s2, [out]⟩
            | .ok =>
              let s3 : WState := ⟨s2.rate, setIdempotent now payload.requestId acceptedStatus s2.idem⟩
              ⟨json (.okStatus acceptedStatus payload.requestId) 200 (cors origin), s3, [out]⟩

theorem handleFetch_not_found (now : Nat) (req : Request) (env : Env)
    (up : UpstreamOutcome) (s : WState) (h : req.path ≠ ("/contact".toList)) :
    handleFetch now req env up s = ⟨json (.err notFoundMsg) 404 [], s, []⟩ := by
  unfold handleFetch
  rw [if_pos h]

theorem handleFetch_options_refused (now : Nat) (req : Request) (env : Env)
    (up : UpstreamOutcome) (s : WState) (hpath : req.path = ("/contact".toList))
    (hm : req.method = ("OPTIONS".toList)) (ho : allowedOrigin req.origin env = false) :
    handleFetch now req env up s = ⟨json (.err originMsg) 403 [], s, []⟩ := by
  unfold handleFetch
  rw [if_neg (by simp [hpath]), if_pos hm, if_pos (by simp [ho])]

theorem handleFetch_options_allowed (now : Nat) (req : Request) (env : Env)
    (up : UpstreamOutcome) (s : WState) (hpath : req.path = ("/contact".toList))
    (hm : req.method = ("OPTIONS".toList)) (ho : allowedOrigin req.origin env = true) :
    handleFetch now req env up s = ⟨⟨204, cors (req.origin.getD []), .empty⟩, s, []⟩ := by
  unfold handleFetch
  rw [if_neg (by simp [hpath]), if_pos hm, if_neg (by simp [ho])]

theorem handleFetch_bad_method (now : Nat) (req : Request) (env : Env)
    (up : UpstreamOutcome) (s : WState) (hpath : req.path = ("/contact".toList))
    (hm1 : req.method ≠ ("OPTIONS".toList)) (hm2 : req.method ≠ ("POST".toList)) :
    handleFetch now req env up s = ⟨json (.err methodMsg) 405 [], s, []⟩ := by
  unfold handleFetch
  rw [if_neg (by simp [hpath]), if_neg hm1, if_pos hm2]

theorem handleFetch_post_refused (now : Nat) (req : Request) (env : Env)
    (up : UpstreamOutcome) (s : WState) (hpath : req.path = ("/contact".toList))
    (hm : req.method = ("POST".toList)) (ho : allowedOrigin req.origin env = false) :
    handleFetch now req env up s = ⟨json (.err originMsg) 403 [], s, []⟩ := by
  unfold handleFetch
  rw [if_neg (by simp [hpath]), if_neg (by rw [hm]; decide), if_neg (by simp [hm]),
    if_pos (by simp [ho])]

theorem handleFetch_limited (now : Nat) (req : Request) (env : Env)
    (up : UpstreamOutcome) (s : WState) (rm : JMap Bucket)
    (hpath : req.path = ("/contact".toList)) (hm : req.method = ("POST".toList))
    (ho : allowedOrigin req.origin env = true)
    (hrl : rateLimited now (clientIp req) s.rate = (true, rm)) :
    handleFetch now req env up s =
      ⟨json (.err rateMsg) 429 (cors (req.origin.getD [])), ⟨rm, s.idem⟩, []⟩ := by
  unfold handleFetch
  rw [if_neg (by simp [hpath]), if_neg (by rw [hm]; decide), if_neg (by simp [hm]),
    if_neg (by simp [ho])]
  simp only [hrl, if_pos]

theorem handleFetch_bad_json (now : Nat) (req : Request) (env : Env)
    (up : UpstreamOutcome) (s : WState) (rm : JMap Bucket)
    (hpath : req.path = ("/contact".toList)) (hm : req.method = ("POST".toList))
    (ho : allowedOrigin req.origin env = true)
    (hrl : rateLimited now (clientIp req) s.rate = (false, rm))
    (hb : req.body = none) :
    handleFetch now req env up s =
      ⟨json (.err invalidJsonMsg) 400 (cors (req.origin.getD [])), ⟨rm, s.idem⟩, []⟩ := by
  unfold handleFetch
  rw [if_neg (by simp [hpath]), if_neg (by rw [hm]; decide), if_neg (by simp [hm]),
    if_neg (by simp [ho])]
  simp only [hrl, hb, Bool.false_eq_true, if_false]

theorem handleFetch_invalid (now : Nat) (req : Request) (env : Env)
    (up : UpstreamOutcome) (s : WState) (rm : JMap Bucket) (b : JsValue) (e : JStr)
    (hpath : req.path = ("/contact".toList)) (hm : req.method = ("POST".toList))
    (ho : allowedOrigin req.origin env = true)
    (hrl : rateLimited now (clientIp req) s.rate = (false, rm))
    (hb : req.body = some b) (hv : validateBody b = .error e) :
    handleFetch now req env up s =
      ⟨json (.err e) 400 (cors (req.origin.getD [])), ⟨rm, s.idem⟩, []⟩ := by
  unfold handleFetch
  rw [if_neg (by simp [hpath]), if_neg (by rw [hm]; decide), if_neg (by simp [hm]),
    if_neg (by simp [ho])]
  simp only [hrl, hb, hv, Bool.false_eq_true, if_false]

theorem handleFetch_duplicate (now : Nat) (req : Request) (env : Env)
    (up : UpstreamOutcome) (s : WState) (rm : JMap Bucket) (b : JsValue) (p : Payload)
    (r : IdemRecord) (im : JMap IdemRecord)
    (hpath : req.path = ("/contact".toList)) (hm : req.method = ("POST".toList))
    (ho : allowedOrigin req.origin env = true)
    (hrl : rateLimited now (clientIp req) s.rate = (false, rm))
    (hb : req.body = some b) (hv : validateBody b = .ok p)
    (hgi : getIdempotent now p.requestId s.idem = (some r, im)) :
    handleFetch now req env up s =
      ⟨json (.okStatus duplicateStatus p.requestId) 200 (cors (req.origin.getD [])),
        ⟨rm, im⟩, []⟩ := by
  unfold handleFetch
  rw [if_neg (by simp [hpath]), if_neg (by rw [hm]; decide), if_neg (by simp [hm]),
    if_neg (by simp [ho])]
  simp only [hrl, hb, hv, hgi, Bool.false_eq_true, if_false]

theorem handleFetch_dispatch_ok (now : Nat) (req : Request) (env : Env)
    (s : WState) (rm : JMap Bucket) (b : JsValue) (p : Payload) (im : JMap IdemRecord)
    (hpath : req.path = ("/contact".toList)) (hm : req.method = ("POST".toList))
    (ho : allowedOrigin req.origin env = true)
    (hrl : rateLimited now (clientIp req) s.rate = (false, rm))
    (hb : req.body = some b) (hv : validateBody b = .ok p)
    (hgi : getIdempotent now p.requestId s.idem = (none, im)) :
    handleFetch now req env .ok s =
      ⟨json (.okStatus acceptedStatus p.requestId) 200 (cors (req.origin.getD [])),
        ⟨rm, setIdempotent now p.requestId acceptedStatus im⟩, [outboundFor env p]⟩ := by
  unfold handleFetch
  rw [if_neg (by simp [hpath]), if_neg (by rw [hm]; decide), if_neg (by simp [hm]),
    if_neg (by simp [ho])]
  simp only [hrl, hb, hv, hgi, Bool.false_eq_true, if_false]

theorem handleFetch_dispatch_httpFail (now : Nat) (req : Request) (env : Env)
    (s : WState) (rm : JMap Bucket) (b : JsValue) (p : Payload) (im : JMap IdemRecord)
    (hpath : req.path = ("/contact".toList)) (hm : req.method = ("POST".toList))
    (ho : allowedOrigin req.origin env = true)
    (hrl : rateLimited now (clientIp req) s.rate = (false, rm))
    (hb : req.body = some b) (hv : validateBody b = .ok p)
    (hgi : getIdempotent now p.requestId s.idem = (none, im)) :
    handleFetch now req env .httpFail s =
      ⟨json (.errRetryable upstreamErrMsg) 502 (cors (req.origin.getD [])),
        ⟨rm, im⟩, [outboundFor env p]⟩ := by
  unfold handleFetch
  rw [if_neg (by simp [hpath]), if_neg (by rw [hm]; decide), if_neg (by simp [hm]),
    if_neg (by simp [ho])]
  simp only [hrl, hb, hv, hgi, Bool.false_eq_true, if_false]

theorem handleFetch_dispatch_throws (now : Nat) (req : Request) (env : Env)
    (s : WState) (rm : JMap Bucket) (b : JsValue) (p : Payload) (im : JMap IdemRecord)
    (hpath : req.path = ("/contact".toList)) (hm : req.method = ("POST".toList))
    (ho : allowedOrigin req.origin env = true)
    (hrl : rateLimited now (clientIp req) s.rate = (false, rm))
    (hb : req.body = some b) (hv : validateBody b = .ok p)
    (hgi : getIdempotent now p.requestId s.idem = (none, im)) :
    handleFetch now req env .throws s =
      ⟨json (.errRetryable transportErrMsg) 502 (cors (req.origin.getD [])),
        ⟨rm, im⟩, [outboundFor env p]⟩ := by
  unfold handleFetch
  rw [if_neg (by simp [hpath]), if_neg (by rw [hm]; decide), if_neg (by simp [hm]),
    if_neg (by simp [ho])]
  simp only [hrl, hb, hv, hgi, Bool.false_eq_true, if_false]


theorem mapSet_self {α : Type} (m : JMap α) (k : JStr) (v : α) : mapSet m k v k = some v := by
  unfold mapSet
  rw [if_pos rfl]

theorem mapSet_ne {α : Type} (m : JMap α) (k : JStr) (v : α) {k' : JStr} (h : k' ≠ k) :
    mapSet m k v k' = m k' := by
  unfold mapSet
  rw [if_neg h]

theorem mapDel_self {α : Type} (m : JMap α) (k : JStr) : mapDel m k k = none := by
  unfold mapDel
  rw [if_pos rfl]

theorem rateLimited_none (now : Nat) (k : JStr) (m : JMap Bucket) (h : m k = none) :
    rateLimited now k m = (false, mapSet m k ⟨1, now + RATE_WINDOW_MS⟩) := by
  unfold rateLimited
  simp only [h]

theorem rateLimited_expired (now : Nat) (k : JStr) (m : JMap Bucket) (c r : Nat)
    (h : m k = some ⟨c, r⟩) (ht : r < now) :
    rateLimited now k m = (false, mapSet m k ⟨1, now + RATE_WINDOW_MS⟩) := by
  unfold rateLimited
  simp only [h]
  rw [if_pos ht]

theorem rateLimited_full (now : Nat) (k : JStr) (m : JMap Bucket) (c r : Nat)
    (h : m k = some ⟨c, r⟩) (ht : now ≤ r) (hc : RATE_MAX ≤ c) :
    rateLimited now k m = (true, m) := by
  unfold rateLimited
  simp only [h]
  rw [if_neg (not_lt.mpr ht), if_pos hc]

theorem rateLimited_live_step (now : Nat) (k : JStr) (m : JMap Bucket) (c r : Nat)
    (h : m k = some ⟨c, r⟩) (ht : now ≤ r) (hc : c < RATE_MAX) :
    rateLimited now k m = (false, mapSet m k ⟨c + 1, r⟩) := by
  unfold rateLimited
  simp only [h]
  rw [if_neg (not_lt.mpr ht), if_neg (not_le.mpr hc)]

/-- A client whose bucket is below the maximum is never limited, whatever
the current time is. -/
theorem rateLimited_low (now : Nat) (k : JStr) (m : JMap Bucket) (c r : Nat)
    (h : m k = some ⟨c, r⟩) (hc : c < RATE_MAX) :
    ∃ b2 : Bucket, rateLimited now k m = (false, mapSet m k b2) ∧
      1 ≤ b2.count ∧ b2.count ≤ c + 1 := by
  by_cases ht : r < now
  · exact ⟨⟨1, now + RATE_WINDOW_MS⟩, rateLimited_expired now k m c r h ht,
      Nat.le_refl 1, Nat.le_add_left 1 c⟩
  · exact ⟨⟨c + 1, r⟩, rateLimited_live_step now k m c r h (not_lt.mp ht) hc,
      Nat.le_add_left 1 c, Nat.le_refl _⟩

theorem rateLimited_step_count_le (now : Nat) (k0 : JStr) (m : JMap Bucket)
    (hm : ∀ k b, m k = some b → b.count ≤ RATE_MAX) :
    ∀ k b, (rateLimited now k0 m).2 k = some b → b.count ≤ RATE_MAX := by
  intro k b hb
  unfold rateLimited at hb
  cases hk0 : m k0 with
  | none =>
    simp only [hk0, mapSet] at hb
    by_cases hkk : k = k0
    · rw [if_pos hkk] at hb
      cases hb
      simp [RATE_MAX]
    · rw [if_neg hkk] at hb
      exact hm k b hb
  | some ex =>
    simp only [hk0] at hb
    by_cases ht : now > ex.resetAt
    · rw [if_pos ht] at hb
      simp only [mapSet] at hb
      by_cases hkk : k = k0
      · rw [if_pos hkk] at hb
        cases hb
        simp [RATE_MAX]
      · rw [if_neg hkk] at hb
        exact hm k b hb
    · rw [if_neg ht] at hb
      by_cases hc : ex.count ≥ RATE_MAX
      · rw [if_pos hc] at hb
        exact hm k b hb
      · rw [if_neg hc] at hb
        simp only [mapSet] at hb
        by_cases hkk : k = k0
        · rw [if_pos hkk] at hb
          cases hb
          exact Nat.succ_le_of_lt (not_le.mp hc)
        · rw [if_neg hkk] at hb
          exact hm k b hb

theorem runCalls_count_le : ∀ (steps : List (Nat × JStr)) (m : JMap Bucket),
    (∀ k b, m k = some b → b.count ≤ RATE_MAX) →
    ∀ k b, runCalls steps m k = some b → b.count ≤ RATE_MAX
  | [], _, hm => hm
  | (now, k0) :: rest, m, hm =>
    runCalls_count_le rest (rateLimited now k0 m).2 (rateLimited_step_count_le now k0 m hm)

/-- Claim C8: in every state reachable from the empty bucket map by any
sequence of rate-limiter calls, every bucket's count stays at or below
`RATE_MAX`, and a call that observes `now > resetAt` resets the bucket
to `{count: 1, resetAt: now + RATE_WINDOW_MS}` and is not limited. -/
theorem rate_bucket_invariant :
    (∀ (steps : List (Nat × JStr)) (k : JStr) (b : Bucket),
        runCalls steps emptyMap k = some b → b.count ≤ RATE_MAX) ∧
    (∀ (now : Nat) (k : JStr) (m : JMap Bucket) (c r : Nat),
        m k = some ⟨c, r⟩ → r < now →
        rateLimited now k m = (false, mapSet m k ⟨1, now + RATE_WINDOW_MS⟩)) := by
  constructor
  · intro steps k b hb
    refine runCalls_count_le steps emptyMap (fun _ _ h => ?_) k b hb
    cases h
  · intro now k m c r h ht
    exact rateLimited_expired now k m c r h ht

/-- Witness for C8 at concrete inputs: one call at time 0 leaves the
bucket at count 1, and a call at time 70000 on a bucket whose window
ended at 60000 resets it. -/
theorem rate_bucket_invariant_witness :
    (Bucket.mk 1 RATE_WINDOW_MS).count ≤ RATE_MAX ∧
    rateLimited 70000 ("a".toList) (mapSet emptyMap ("a".toList) ⟨5, 60000⟩) =
      (false, mapSet (mapSet emptyMap ("a".toList) ⟨5, 60000⟩) ("a".toList)
        ⟨1, 70000 + RATE_WINDOW_MS⟩) := by
  constructor
  · exact rate_bucket_invariant.1 [(0, ("a".toList))] ("a".toList) ⟨1, RATE_WINDOW_MS⟩ rfl
  · exact rate_bucket_invariant.2 70000 ("a".toList) _ 5 60000 (mapSet_self _ _ _) (by decide)

/-- Claim C2: from a fresh bucket, five calls inside one window all pass,
the sixth call in the same window is limited and leaves the bucket map
unchanged (`resetAt` is not extended), and a call after the window
resets the bucket to `{count: 1, resetAt: now + RATE_WINDOW_MS}` and
passes. -/
theorem rate_window_scenario (k : JStr) (m0 : JMap Bucket)
    (t0 t1 t2 t3 t4 t5 t6 : Nat) (h0 : m0 k = none)
    (h1 : t1 ≤ t0 + RATE_WINDOW_MS) (h2 : t2 ≤ t0 + RATE_WINDOW_MS)
    (h3 : t3 ≤ t0 + RATE_WINDOW_MS) (h4 : t4 ≤ t0 + RATE_WINDOW_MS)
    (h5 : t5 ≤ t0 + RATE_WINDOW_MS) (h6 : t0 + RATE_WINDOW_MS < t6) :
    ∃ m1 m2 m3 m4 m5 m7 : JMap Bucket,
      rateLimited t0 k m0 = (false, m1) ∧
      rateLimited t1 k m1 = (false, m2) ∧
      rateLimited t2 k m2 = (false, m3) ∧
      rateLimited t3 k m3 = (false, m4) ∧
      rateLimited t4 k m4 = (false, m5) ∧
      m5 k = some ⟨5, t0 + RATE_WINDOW_MS⟩ ∧
      rateLimited t5 k m5 = (true, m5) ∧
      rateLimited t6 k m5 = (false, m7) ∧
      m7 k = some ⟨1, t6 + RATE_WINDOW_MS⟩ := by
  refine ⟨_, _, _, _, _, _,
    rateLimited_none t0 k m0 h0,
    rateLimited_live_step t1 k _ 1 (t0 + RATE_WINDOW_MS) (mapSet_self _ _ _) h1 (by decide),
    rateLimited_live_step t2 k _ 2 (t0 + RATE_WINDOW_MS) (mapSet_self _ _ _) h2 (by decide),
    rateLimited_live_step t3 k _ 3 (t0 + RATE_WINDOW_MS) (mapSet_self _ _ _) h3 (by decide),
    rateLimited_live_step t4 k _ 4 (t0 + RATE_WINDOW_MS) (mapSet_self _ _ _) h4 (by decide),
    mapSet_self _ _ _,
    rateLimited_full t5 k _ 5 (t0 + RATE_WINDOW_MS) (mapSet_self _ _ _) h5 (by decide),
    rateLimited_expired t6 k _ 5 (t0 + RATE_WINDOW_MS) (mapSet_self _ _ _) h6,
    mapSet_self _ _ _⟩

/-- Witness for C2 at concrete inputs: calls at times 0, 1, 2, 3, 4, 5
and 70000 for one client key starting from the empty map. -/
theorem rate_window_scenario_witness :
    ∃ m1 m2 m3 m4 m5 m7 : JMap Bucket,
      rateLimited 0 ("1.2.3.4".toList) emptyMap = (false, m1) ∧
      rateLimited 1 ("1.2.3.4".toList) m1 = (false, m2) ∧
      rateLimited 2 ("1.2.3.4".toList) m2 = (false, m3) ∧
      rateLimited 3 ("1.2.3.4".toList) m3 = (false, m4) ∧
      rateLimited 4 ("1.2.3.4".toList) m4 = (false, m5) ∧
      m5 ("1.2.3.4".toList) = some ⟨5, 0 + RATE_WINDOW_MS⟩ ∧
      rateLimited 5 ("1.2.3.4".toList) m5 = (true, m5) ∧
      rateLimited 70000 ("1.2.3.4".toList) m5 = (false, m7) ∧
      m7 ("1.2.3.4".toList) = some ⟨1, 70000 + RATE_WINDOW_MS⟩ :=
  rate_window_scenario ("1.2.3.4".toList) emptyMap 0 1 2 3 4 5 70000 rfl
    (by decide) (by decide) (by decide) (by decide) (by decide) (by decide)

/-- Claim C3 counterexample: `sanitizeText("a b", 2)` is `"a "` — the
truncation cuts inside the collapsed run and leaves a trailing space —
and sanitizing that again gives `"a"`, so the sanitizer is not
idempotent at maxLength 2. -/
theorem sanitize_not_idempotent :
    sanitizeText (.str (sanitizeText (.str ("a b".toList)) 2)) 2 ≠
      sanitizeText (.str ("a b".toList)) 2 := by
  decide

/-- Claim C3 amended: re-sanitizing only strips the trailing space that
truncation may have left, so `sanitize(sanitize(x, n), n)` equals
`trimRight(sanitize(x, n))`; in particular the two sides agree whenever
`sanitize(x, n)` does not end in a space. -/
theorem sanitize_idempotent_upto_trailing (x : JStr) (n : Nat) :
    sanitizeText (.str (sanitizeText (.str x) n)) n =
      trimRight (sanitizeText (.str x) n) :=
  sanitizeStr_sanitizeStr x n

theorem emailChar_dot : emailChar '.' = true := by decide

theorem dropWhile_head_false {α : Type} {p : α → Bool} :
    ∀ {s : List α} {x : α} {xs : List α}, s.dropWhile p = x :: xs → p x = false := by
  intro s
  induction s with
  | nil => intro x xs h; cases h
  | cons c cs ih =>
    intro x xs h
    rw [List.dropWhile_cons] at h
    by_cases hp : p c
    · rw [if_pos hp] at h
      exact ih h
    · rw [if_neg hp] at h
      cases h
      simpa using hp

theorem emailChar_not_at {ch : Char} (h : emailChar ch = true) : (ch == '@') = false := by
  unfold emailChar at h
  rw [Bool.and_eq_true] at h
  simpa using h.2

/-- The executable email matcher agrees with the pattern the
specification describes. -/
theorem emailOk_iff_pattern (s : JStr) : emailOk s = true ↔ emailSpecPattern s := by
  constructor
  · intro h
    unfold emailOk at h
    cases hd : s.dropWhile (fun c => !(c == '@')) with
    | nil =>
      rw [hd] at h
      simp at h
    | cons hd0 r =>
      rw [hd] at h
      simp only [Bool.and_eq_true, Bool.not_eq_true', List.all_eq_true] at h
      obtain ⟨⟨⟨⟨hlne, hlall⟩, hrne⟩, hrall⟩, hdot⟩ := h
      have hhd : hd0 = '@' := by
        have hh := dropWhile_head_false hd
        simpa using hh
      have hs : s.takeWhile (fun c => !(c == '@')) ++ (hd0 :: r) = s := by
        rw [← hd]
        exact List.takeWhile_append_dropWhile _ _
      have hrne' : r ≠ [] := by simpa [List.isEmpty_iff] using hrne
      cases hr0 : r with
      | nil => exact absurd hr0 hrne'
      | cons r0 t =>
        rw [hr0] at hdot
        rw [List.drop_succ_cons, List.drop_zero] at hdot
        have hmem : '.' ∈ t.dropLast := by
          have := hdot
          simpa [List.contains] using this
        have htne : t ≠ [] := by
          intro he
          rw [he] at hmem
          simp at hmem
        obtain ⟨u, v, huv⟩ := List.append_of_mem hmem
        have hlast : t.dropLast ++ [t.getLast htne] = t :=
          List.dropLast_concat_getLast htne
        refine ⟨s.takeWhile (fun c => !(c == '@')), r0 :: u, v ++ [t.getLast htne],
          (by simpa [List.isEmpty_iff] using hlne), (by simp), (by simp), ?_, ?_, ?_, ?_⟩
        · intro ch hch
          exact hlall ch hch
        · intro ch hch
          refine hrall ch ?_
          rw [hr0]
          rcases List.mem_cons.mp hch with hch | hch
          · exact hch ▸ List.mem_cons_self r0 t
          · refine List.mem_cons_of_mem r0 ?_
            rw [← hlast, huv]
            exact List.mem_append_left _ (List.mem_append_left _ hch)
        · intro ch hch
          refine hrall ch ?_
          rw [hr0]
          refine List.mem_cons_of_mem r0 ?_
          rw [← hlast, huv]
          rcases List.mem_append.mp hch with hch | hch
          · exact List.mem_append_left _ (List.mem_append_right _ (List.mem_cons_of_mem _ hch))
          · exact List.mem_append_right _ hch
        · have hteq : t = u ++ '.' :: (v ++ [t.getLast htne]) := by
            conv_lhs => rw [← hlast]
            rw [huv]
            simp
          conv_lhs => rw [← hs, hhd, hr0, hteq]
          simp
  · rintro ⟨a, b, c, ha, hb, hc, hca, hcb, hcc, rfl⟩
    have hPa : ∀ ch ∈ a, (fun c => !(c == '@')) ch = true := by
      intro ch hch
      simp only [Bool.not_eq_true']
      exact emailChar_not_at (hca ch hch)
    unfold emailOk
    rw [List.takeWhile_append_of_pos hPa, List.dropWhile_append_of_pos hPa,
      List.takeWhile_cons_of_neg (by simp), List.dropWhile_cons_of_neg (by simp)]
    simp only [List.append_nil, Bool.and_eq_true, Bool.not_eq_true', List.all_eq_true]
    refine ⟨⟨⟨⟨by simpa [List.isEmpty_iff] using ha, fun x hx => hca x hx⟩, ?_⟩, ?_⟩, ?_⟩
    · simp [List.isEmpty_iff]
    · intro x hx
      rcases List.mem_append.mp hx with hx | hx
      · exact hcb x hx
      · rcases List.mem_cons.mp hx with hx | hx
        · exact hx ▸ emailChar_dot
        · exact hcc x hx
    · cases b with
      | nil => exact absurd rfl hb
      | cons b0 bt =>
        rw [List.cons_append, List.drop_succ_cons, List.drop_zero,
          List.dropLast_append_cons, List.dropLast_cons_of_ne_nil hc]
        simp [List.contains]

theorem sanitizeText_length_le (v : JsValue) (n : Nat) : (sanitizeText v n).length ≤ n :=
  sanitizeStr_length_le _ n

/-- Claim C6: the validator rejects absent/non-object bodies with the
invalid-payload reason; on object bodies it builds the payload by
sanitizing the six fields at bounds 120/120/160/180/4000/80, rejects
with the missing-fields reason when a sanitized field is empty, rejects
with the invalid-email reason exactly when the email does not match the
specified pattern, and otherwise returns the sanitized payload; the
matcher accepts "a@b.co" and rejects "abc", "a@b", "@b.co" and "". -/
theorem validator_behavior :
    (∀ b : JsValue, truthy b = false ∨ isObjectType b = false →
        validateBody b = .error invalidPayloadMsg) ∧
    (∀ b : JsValue, truthy b = true → isObjectType b = true →
        anyFieldMissing (buildPayload b) = true →
        validateBody b = .error missingFieldsMsg) ∧
    (∀ b : JsValue, truthy b = true → isObjectType b = true →
        anyFieldMissing (buildPayload b) = false →
        (validateBody b = .error invalidEmailMsg ↔ ¬ emailSpecPattern (buildPayload b).email) ∧
        (emailSpecPattern (buildPayload b).email → validateBody b = .ok (buildPayload b))) ∧
    (∀ (b : JsValue) (p : Payload), validateBody b = .ok p → p = buildPayload b ∧
        p.requestId.length ≤ 120 ∧ p.name.length ≤ 120 ∧ p.email.length ≤ 160 ∧
        p.subject.length ≤ 180 ∧ p.message.length ≤ 4000 ∧ p.timestamp.length ≤ 80 ∧
        anyFieldMissing p = false ∧ emailSpecPattern p.email) ∧
    (emailOk ("a@b.co".toList) = true ∧ emailOk ("abc".toList) = false ∧
      emailOk ("a@b".toList) = false ∧ emailOk ("@b.co".toList) = false ∧
      emailOk ([] : JStr) = false) := by
  refine ⟨?_, ?_, ?_, ?_, by decide, by decide, by decide, by decide, by decide⟩
  · intro b h
    unfold validateBody
    rcases h with h | h <;> rw [if_pos (by simp [h])]
  · intro b h1 h2 hmiss
    unfold validateBody
    rw [if_neg (by simp [h1, h2])]
    simp only [hmiss, if_true]
  · intro b h1 h2 hmiss
    have hbase : validateBody b =
        if !(emailOk (buildPayload b).email) then .error invalidEmailMsg
        else .ok (buildPayload b) := by
      unfold validateBody
      rw [if_neg (by simp [h1, h2])]
      simp only [hmiss, Bool.false_eq_true, if_false]
    by_cases he : emailOk (buildPayload b).email = true
    · rw [hbase, if_neg (by simp [he])]
      constructor
      · constructor
        · intro hcon
          cases hcon
        · intro hnp
          exact absurd ((emailOk_iff_pattern _).mp he) hnp
      · intro _
        rfl
    · rw [hbase, if_pos (by simp [Bool.not_eq_true] at he; simp [he])]
      constructor
      · constructor
        · intro _
          intro hp
          exact he ((emailOk_iff_pattern _).mpr hp)
        · intro _
          rfl
      · intro hp
        exact absurd ((emailOk_iff_pattern _).mpr hp) he
  · intro b p hv
    unfold validateBody at hv
    by_cases h1 : (!(truthy b) || !(isObjectType b)) = true
    · rw [if_pos h1] at hv
      cases hv
    · rw [if_neg h1] at hv
      by_cases hm : anyFieldMissing (buildPayload b) = true
      · simp only [hm, if_true] at hv
        cases hv
      · rw [Bool.not_eq_true] at hm
        simp only [hm, Bool.false_eq_true, if_false] at hv
        by_cases he : emailOk (buildPayload b).email = true
        · rw [if_neg (by simp [he])] at hv
          cases hv
          refine ⟨rfl, sanitizeText_length_le _ _, sanitizeText_length_le _ _,
            sanitizeText_length_le _ _, sanitizeText_length_le _ _,
            sanitizeText_length_le _ _, sanitizeText_length_le _ _, hm,
            (emailOk_iff_pattern _).mp he⟩
        · rw [Bool.not_eq_true] at he
          rw [if_pos (by simp [he])] at hv
          cases hv

/-- Witness for C6 at concrete inputs: a string body is rejected as an
invalid payload, an empty object is rejected for missing fields, and a
well-formed object body is accepted with its sanitized payload. -/
theorem validator_behavior_witness :
    validateBody (.str ("x".toList)) = .error invalidPayloadMsg ∧
    validateBody (.obj []) = .error missingFieldsMsg ∧
    validateBody (.obj [(("requestId"), .str ("r1".toList)), (("name"), .str (" Ann ".toList)),
      (("email"), .str ("a@b.co".toList)), (("subject"), .str ("s".toList)),
      (("message"), .str ("m".toList)), (("timestamp"), .str ("t".toList))]) =
      .ok ⟨("r1".toList), ("Ann".toList), ("a@b.co".toList), ("s".toList), ("m".toList),
        ("t".toList)⟩ := by
  refine ⟨validator_behavior.1 (.str ("x".toList)) (Or.inr rfl),
    validator_behavior.2.1 (.obj []) rfl rfl rfl, ?_⟩
  have h := (validator_behavior.2.2.1 (.obj [(("requestId"), .str ("r1".toList)),
    (("name"), .str (" Ann ".toList)), (("email"), .str ("a@b.co".toList)),
    (("subject"), .str ("s".toList)), (("message"), .str ("m".toList)),
    (("timestamp"), .str ("t".toList))]) rfl rfl rfl).2
    ((emailOk_iff_pattern _).mp (by decide))
  exact h

theorem getIdempotent_none (now : Nat) (rid : JStr) (m : JMap IdemRecord)
    (h : m rid = none) : getIdempotent now rid m = (none, m) := by
  unfold getIdempotent
  simp only [h]

theorem getIdempotent_live (now : Nat) (rid : JStr) (m : JMap IdemRecord) (st : JStr)
    (e : Nat) (h : m rid = some ⟨st, e⟩) (ht : now ≤ e) :
    getIdempotent now rid m = (some ⟨st, e⟩, m) := by
  unfold getIdempotent
  simp only [h]
  rw [if_neg (not_lt.mpr ht)]

theorem getIdempotent_expired (now : Nat) (rid : JStr) (m : JMap IdemRecord) (st : JStr)
    (e : Nat) (h : m rid = some ⟨st, e⟩) (ht : e < now) :
    getIdempotent now rid m = (none, mapDel m rid) := by
  unfold getIdempotent
  simp only [h]
  rw [if_pos ht]

/-- After a lookup that reports absent, the store has no record for that
requestId (an expired record was deleted on the way). -/
theorem getIdempotent_none_out {now : Nat} {rid : JStr} {m im : JMap IdemRecord}
    (h : getIdempotent now rid m = (none, im)) : im rid = none := by
  unfold getIdempotent at h
  cases hm : m rid with
  | none =>
    simp only [hm] at h
    rw [Prod.mk.injEq] at h
    rw [← h.2]
    exact hm
  | some r =>
    simp only [hm] at h
    by_cases ht : now > r.expiresAt
    · rw [if_pos ht, Prod.mk.injEq] at h
      rw [← h.2]
      exact mapDel_self m rid
    · rw [if_neg ht, Prod.mk.injEq] at h
      cases h.1

/-- A fixture: a well-formed contact submission body. -/
def sampleBody : JsValue :=
  .obj [(("requestId"), .str ("r-1".toList)), (("name"), .str ("Ann".toList)),
    (("email"), .str ("a@b.co".toList)), (("subject"), .str ("Hi".toList)),
    (("message"), .str ("Hello there".toList)), (("timestamp"), .str ("2024".toList))]

/-- The payload `validateBody` produces from `sampleBody`. -/
def samplePayload : Payload :=
  ⟨("r-1".toList), ("Ann".toList), ("a@b.co".toList), ("Hi".toList),
    ("Hello there".toList), ("2024".toList)⟩

/-- A fixture environment allowing one origin. -/
def sampleEnv : Env :=
  ⟨("https://api.example/send".toList), ("secret-key-1".toList),
    some ("https://site.example".toList)⟩

/-- A fixture POST request from the allowed origin carrying `sampleBody`. -/
def sampleReq : Request :=
  ⟨("/contact".toList), ("POST".toList), some ("https://site.example".toList),
    some ("9.9.9.9".toList), some sampleBody⟩

/-- The fresh worker state: both maps empty. -/
def sampleState : WState := ⟨emptyMap, emptyMap⟩

/-- Claim C4: a POST that reaches the dispatch stage and sees an upstream
non-success status or a transport exception is answered 502 with a
retryable body, and no idempotency record exists for its requestId
afterwards — the record is only written on upstream success. -/
theorem upstream_failure_propagation (now : Nat) (req : Request) (env : Env)
    (up : UpstreamOutcome) (s : WState) (rm : JMap Bucket) (b : JsValue) (p : Payload)
    (im : JMap IdemRecord)
    (hpath : req.path = ("/contact".toList)) (hm : req.method = ("POST".toList))
    (ho : allowedOrigin req.origin env = true)
    (hrl : rateLimited now (clientIp req) s.rate = (false, rm))
    (hb : req.body = some b) (hv : validateBody b = .ok p)
    (hgi : getIdempotent now p.requestId s.idem = (none, im))
    (hup : up = .httpFail ∨ up = .throws) :
    (handleFetch now req env up s).resp.status = 502 ∧
    ((handleFetch now req env up s).resp.body = .errRetryable upstreamErrMsg ∨
      (handleFetch now req env up s).resp.body = .errRetryable transportErrMsg) ∧
    (handleFetch now req env up s).state.idem p.requestId = none := by
  rcases hup with rfl | rfl
  · rw [handleFetch_dispatch_httpFail now req env s rm b p im hpath hm ho hrl hb hv hgi]
    exact ⟨rfl, Or.inl rfl, getIdempotent_none_out hgi⟩
  · rw [handleFetch_dispatch_throws now req env s rm b p im hpath hm ho hrl hb hv hgi]
    exact ⟨rfl, Or.inr rfl, getIdempotent_none_out hgi⟩

/-- Witness for C4 at concrete inputs: the sample POST with a failing
upstream is answered 502 retryable and writes no idempotency record. -/
theorem upstream_failure_propagation_witness :
    (handleFetch 0 sampleReq sampleEnv .httpFail sampleState).resp.status = 502 ∧
    ((handleFetch 0 sampleReq sampleEnv .httpFail sampleState).resp.body =
        .errRetryable upstreamErrMsg ∨
      (handleFetch 0 sampleReq sampleEnv .httpFail sampleState).resp.body =
        .errRetryable transportErrMsg) ∧
    (handleFetch 0 sampleReq sampleEnv .httpFail sampleState).state.idem
      samplePayload.requestId = none :=
  upstream_failure_propagation 0 sampleReq sampleEnv .httpFail sampleState _ sampleBody
    samplePayload _ rfl rfl rfl rfl rfl rfl rfl (Or.inl rfl)

/-- An admitted limiter call advances the client's in-window count by
exactly one (a fresh or expired window counts from zero). -/
theorem rateLimited_advances (now : Nat) (k : JStr) (m : JMap Bucket)
    (h : (rateLimited now k m).1 = false) :
    windowCount now k (rateLimited now k m).2 = windowCount now k m + 1 := by
  cases hm : m k with
  | none =>
    rw [rateLimited_none now k m hm]
    simp only [windowCount, mapSet_self, hm]
    rw [if_neg (by omega)]
  | some ex =>
    by_cases ht : now > ex.resetAt
    · rw [rateLimited_expired now k m ex.count ex.resetAt (by rw [hm]) ht]
      simp only [windowCount, mapSet_self, hm]
      rw [if_neg (by omega), if_pos ht]
    · by_cases hc : ex.count ≥ RATE_MAX
      · rw [rateLimited_full now k m ex.count ex.resetAt (by rw [hm]) (not_lt.mp ht) hc] at h
        cases h
      · rw [rateLimited_live_step now k m ex.count ex.resetAt (by rw [hm]) (not_lt.mp ht)
          (not_le.mp hc)]
        simp only [windowCount, mapSet_self, hm]
        rw [if_neg ht, if_neg ht]

/-- Claim C5: rate limiting runs before body parsing and validation: for
every allowed-origin POST the final rate-bucket state is exactly the
one limiter step on the client key, independent of the body, the
validator, the idempotency store and the upstream; an admitted call
consumes exactly one window slot; and an admitted POST whose body is
malformed JSON or fails validation is still answered 400 with the slot
consumed. -/
theorem rate_before_validation (now : Nat) (req : Request) (env : Env)
    (up : UpstreamOutcome) (s : WState)
    (hpath : req.path = ("/contact".toList)) (hm : req.method = ("POST".toList))
    (ho : allowedOrigin req.origin env = true) :
    (handleFetch now req env up s).state.rate = (rateLimited now (clientIp req) s.rate).2 ∧
    ((rateLimited now (clientIp req) s.rate).1 = false →
      windowCount now (clientIp req) (rateLimited now (clientIp req) s.rate).2 =
        windowCount now (clientIp req) s.rate + 1) ∧
    ((rateLimited now (clientIp req) s.rate).1 = false →
      (req.body = none ∨ ∃ b e, req.body = some b ∧ validateBody b = .error e) →
      (handleFetch now req env up s).resp.status = 400) := by
  refine ⟨?_, fun h => rateLimited_advances now (clientIp req) s.rate h, ?_⟩
  · cases hrl : rateLimited now (clientIp req) s.rate with
    | mk limited rm =>
      cases limited with
      | true => rw [handleFetch_limited now req env up s rm hpath hm ho hrl]
      | false =>
        cases hb : req.body with
        | none => rw [handleFetch_bad_json now req env up s rm hpath hm ho hrl hb]
        | some b =>
          cases hv : validateBody b with
          | error e => rw [handleFetch_invalid now req env up s rm b e hpath hm ho hrl hb hv]
          | ok p =>
            cases hgi : getIdempotent now p.requestId s.idem with
            | mk found im =>
              cases found with
              | some r =>
                rw [handleFetch_duplicate now req env up s rm b p r im hpath hm ho hrl hb hv hgi]
              | none =>
                cases up with
                | ok => rw [handleFetch_dispatch_ok now req env s rm b p im hpath hm ho hrl hb hv hgi]
                | httpFail =>
                  rw [handleFetch_dispatch_httpFail now req env s rm b p im hpath hm ho hrl hb hv hgi]
                | throws =>
                  rw [handleFetch_dispatch_throws now req env s rm b p im hpath hm ho hrl hb hv hgi]
  · intro hlim hbad
    cases hrl : rateLimited now (clientIp req) s.rate with
    | mk limited rm =>
      rw [hrl] at hlim
      cases hlim
      rcases hbad with hb | ⟨b, e, hb, hv⟩
      · rw [handleFetch_bad_json now req env up s rm hpath hm ho hrl hb]
        rfl
      · rw [handleFetch_invalid now req env up s rm b e hpath hm ho hrl hb hv]
        rfl

/-- A fixture body whose `message` field sanitizes to the empty string. -/
def missingMsgBody : JsValue :=
  .obj [(("requestId"), .str ("r-2".toList)), (("name"), .str ("Ann".toList)),
    (("email"), .str ("a@b.co".toList)), (("subject"), .str ("Hi".toList)),
    (("message"), .str ("   ".toList)), (("timestamp"), .str ("2024".toList))]

/-- A fixture POST request carrying `missingMsgBody`. -/
def missingMsgReq : Request :=
  ⟨("/contact".toList), ("POST".toList), some ("https://site.example".toList),
    some ("9.9.9.9".toList), some missingMsgBody⟩

/-- Witness for C5 at concrete inputs: the empty-message POST is rejected
with 400 but still consumes one rate-limit slot. -/
theorem rate_before_validation_witness :
    (handleFetch 0 missingMsgReq sampleEnv .ok sampleState).state.rate =
      (rateLimited 0 (clientIp missingMsgReq) sampleState.rate).2 ∧
    windowCount 0 (clientIp missingMsgReq)
        (rateLimited 0 (clientIp missingMsgReq) sampleState.rate).2 =
      windowCount 0 (clientIp missingMsgReq) sampleState.rate + 1 ∧
    (handleFetch 0 missingMsgReq sampleEnv .ok sampleState).resp.status = 400 := by
  obtain ⟨h1, h2, h3⟩ := rate_before_validation 0 missingMsgReq sampleEnv .ok sampleState
    rfl rfl rfl
  exact ⟨h1, h2 rfl, h3 rfl (Or.inr ⟨missingMsgBody, missingFieldsMsg, rfl, rfl⟩)⟩

theorem contains_eq_false_of_not_mem {o : JStr} {l : List JStr} (h : o ∉ l) :
    l.contains o = false := by
  show l.elem o = false
  simp [List.elem_eq_mem, h]

theorem allowedOrigin_false_of_not_mem (req : Request) (env : Env)
    (h : req.origin = none ∨ ∀ o, req.origin = some o → o ∉ getAllowedOrigins env) :
    allowedOrigin req.origin env = false := by
  rcases h with h | h
  · rw [h]
    rfl
  · cases ho : req.origin with
    | none => rfl
    | some o =>
      show (if o.isEmpty then false else (getAllowedOrigins env).contains o) = false
      by_cases he : o.isEmpty
      · rw [if_pos he]
      · rw [if_neg he]
        exact contains_eq_false_of_not_mem (h o ho)

theorem allowedOrigin_isSome {origin : Option JStr} {env : Env}
    (h : allowedOrigin origin env = true) : ∃ o, origin = some o := by
  cases origin with
  | none => cases h
  | some o => exact ⟨o, rfl⟩

/-- Every allowed OPTIONS or POST response carries the CORS header set for
the request's origin (possibly after a content-type header). -/
theorem handleFetch_cors (now : Nat) (req : Request) (env : Env) (up : UpstreamOutcome)
    (s : WState) (hpath : req.path = ("/contact".toList))
    (hme : req.method = ("OPTIONS".toList) ∨ req.method = ("POST".toList))
    (ho : allowedOrigin req.origin env = true) :
    ∃ pre, (handleFetch now req env up s).resp.headers = pre ++ cors (req.origin.getD []) := by
  rcases hme with hme | hme
  · rw [handleFetch_options_allowed now req env up s hpath hme ho]
    exact ⟨[], rfl⟩
  · cases hrl : rateLimited now (clientIp req) s.rate with
    | mk limited rm =>
      cases limited with
      | true =>
        rw [handleFetch_limited now req env up s rm hpath hme ho hrl]
        exact ⟨[(("content-type".toList), ("application/json; charset=utf-8".toList))], rfl⟩
      | false =>
        cases hb : req.body with
        | none =>
          rw [handleFetch_bad_json now req env up s rm hpath hme ho hrl hb]
          exact ⟨[(("content-type".toList), ("application/json; charset=utf-8".toList))], rfl⟩
        | some b =>
          cases hv : validateBody b with
          | error e =>
            rw [handleFetch_invalid now req env up s rm b e hpath hme ho hrl hb hv]
            exact ⟨[(("content-type".toList), ("application/json; charset=utf-8".toList))], rfl⟩
          | ok p =>
            cases hgi : getIdempotent now p.requestId s.idem with
            | mk found im =>
              cases found with
              | some r =>
                rw [handleFetch_duplicate now req env up s rm b p r im hpath hme ho hrl hb hv hgi]
                exact ⟨[(("content-type".toList), ("application/json; charset=utf-8".toList))], rfl⟩
              | none =>
                cases up with
                | ok =>
                  rw [handleFetch_dispatch_ok now req env s rm b p im hpath hme ho hrl hb hv hgi]
                  exact ⟨[(("content-type".toList), ("application/json; charset=utf-8".toList))], rfl⟩
                | httpFail =>
                  rw [handleFetch_dispatch_httpFail now req env s rm b p im hpath hme ho hrl hb hv hgi]
                  exact ⟨[(("content-type".toList), ("application/json; charset=utf-8".toList))], rfl⟩
                | throws =>
                  rw [handleFetch_dispatch_throws now req env s rm b p im hpath hme ho hrl hb hv hgi]
                  exact ⟨[(("content-type".toList), ("application/json; charset=utf-8".toList))], rfl⟩

/-- Claim C7 counterexample: a GET to /contact with an origin that is not
in the allow-list is answered 405, not 403 — the method check runs
before the origin check for methods other than OPTIONS and POST, so the
claim quantified over every request fails. -/
theorem origin_gating_counterexample :
    (handleFetch 0 ⟨("/contact".toList), ("GET".toList),
        some ("https://evil.example".toList), none, none⟩ sampleEnv .ok sampleState).resp.status
      = 405 ∧
    (handleFetch 0 ⟨("/contact".toList), ("GET".toList),
        some ("https://evil.example".toList), none, none⟩ sampleEnv .ok sampleState).resp.status
      ≠ 403 := by
  constructor
  · rfl
  · decide

/-- Claim C7 amended: for every OPTIONS or POST request to /contact, an
absent origin or one not exactly equal to an allow-list entry yields a
403 with no CORS headers, and an allowed origin yields a response whose
`access-control-allow-origin` equals the request's exact origin string
and which carries a `Vary: Origin` header. -/
theorem origin_gating (now : Nat) (req : Request) (env : Env) (up : UpstreamOutcome)
    (s : WState) (hpath : req.path = ("/contact".toList))
    (hme : req.method = ("OPTIONS".toList) ∨ req.method = ("POST".toList)) :
    ((req.origin = none ∨ ∀ o, req.origin = some o → o ∉ getAllowedOrigins env) →
      (handleFetch now req env up s).resp.status = 403 ∧
      ∀ v, (acaoKey, v) ∉ (handleFetch now req env up s).resp.headers) ∧
    (allowedOrigin req.origin env = true →
      ∃ o, req.origin = some o ∧
        (acaoKey, o) ∈ (handleFetch now req env up s).resp.headers ∧
        (varyKey, ("Origin".toList)) ∈ (handleFetch now req env up s).resp.headers) := by
  constructor
  · intro h
    have ho := allowedOrigin_false_of_not_mem req env h
    rcases hme with hme | hme
    · rw [handleFetch_options_refused now req env up s hpath hme ho]
      refine ⟨rfl, ?_⟩
      intro v hv
      simp [json] at hv
      exact absurd hv.1 (by decide)
    · rw [handleFetch_post_refused now req env up s hpath hme ho]
      refine ⟨rfl, ?_⟩
      intro v hv
      simp [json] at hv
      exact absurd hv.1 (by decide)
  · intro ho
    obtain ⟨o, hor⟩ := allowedOrigin_isSome ho
    obtain ⟨pre, hpre⟩ := handleFetch_cors now req env up s hpath hme ho
    refine ⟨o, hor, ?_, ?_⟩
    · rw [hpre, hor]
      exact List.mem_append_right pre (by simp [cors])
    · rw [hpre]
      exact List.mem_append_right pre (by simp [cors])

/-- Witness for C7 at concrete inputs: a disallowed-origin POST gets 403
with no CORS headers; the sample POST's response echoes its origin and
varies on Origin. -/
theorem origin_gating_witness :
    ((handleFetch 0 ⟨("/contact".toList), ("POST".toList),
        some ("https://evil.example".toList), none, none⟩ sampleEnv .ok sampleState).resp.status
      = 403 ∧
      ∀ v, (acaoKey, v) ∉ (handleFetch 0 ⟨("/contact".toList), ("POST".toList),
        some ("https://evil.example".toList), none, none⟩ sampleEnv .ok
          sampleState).resp.headers) ∧
    ∃ o, sampleReq.origin = some o ∧
      (acaoKey, o) ∈ (handleFetch 0 sampleReq sampleEnv .ok sampleState).resp.headers ∧
      (varyKey, ("Origin".toList)) ∈
        (handleFetch 0 sampleReq sampleEnv .ok sampleState).resp.headers := by
  constructor
  · exact (origin_gating 0 ⟨("/contact".toList), ("POST".toList),
      some ("https://evil.example".toList), none, none⟩ sampleEnv .ok sampleState rfl
      (Or.inr rfl)).1 (Or.inr (by decide))
  · exact (origin_gating 0 sampleReq sampleEnv .ok sampleState rfl (Or.inr rfl)).2 rfl

/-- An outbound request with its authorization header blanked, used to
state that two runs differ at most in that header. -/
def stripAuth (o : OutboundRequest) : OutboundRequest :=
  { o with authorization := [] }

/-- Claim C9: with the upstream's observable behavior held fixed, the
handler run with any two values of CONTACT_API_KEY produces the same
client-facing response and the same state, and its outbound requests
agree except for the authorization header — which is exactly
`Bearer <key>`. The credential therefore flows only into the outbound
authorization header. -/
theorem credential_confidentiality (now : Nat) (req : Request) (ep k1 k2 : JStr)
    (ao : Option JStr) (up : UpstreamOutcome) (s : WState) :
    (handleFetch now req ⟨ep, k1, ao⟩ up s).resp =
      (handleFetch now req ⟨ep, k2, ao⟩ up s).resp ∧
    (handleFetch now req ⟨ep, k1, ao⟩ up s).state.rate =
      (handleFetch now req ⟨ep, k2, ao⟩ up s).state.rate ∧
    (handleFetch now req ⟨ep, k1, ao⟩ up s).state.idem =
      (handleFetch now req ⟨ep, k2, ao⟩ up s).state.idem ∧
    (handleFetch now req ⟨ep, k1, ao⟩ up s).sent.map stripAuth =
      (handleFetch now req ⟨ep, k2, ao⟩ up s).sent.map stripAuth ∧
    (∀ o ∈ (handleFetch now req ⟨ep, k1, ao⟩ up s).sent,
        o.authorization = ("Bearer ".toList) ++ k1) ∧
    (∀ o ∈ (handleFetch now req ⟨ep, k2, ao⟩ up s).sent,
        o.authorization = ("Bearer ".toList) ++ k2) := by
  by_cases hpath : req.path = ("/contact".toList)
  case neg =>
    rw [handleFetch_not_found now req ⟨ep, k1, ao⟩ up s hpath,
      handleFetch_not_found now req ⟨ep, k2, ao⟩ up s hpath]
    exact ⟨rfl, rfl, rfl, rfl, by simp, by simp⟩
  case pos =>
  by_cases hopt : req.method = ("OPTIONS".toList)
  · by_cases ho : allowedOrigin req.origin ⟨ep, k1, ao⟩ = true
    · rw [handleFetch_options_allowed now req ⟨ep, k1, ao⟩ up s hpath hopt ho,
        handleFetch_options_allowed now req ⟨ep, k2, ao⟩ up s hpath hopt ho]
      exact ⟨rfl, rfl, rfl, rfl, by simp, by simp⟩
    · have ho' : allowedOrigin req.origin ⟨ep, k1, ao⟩ = false := by
        simpa using ho
      rw [handleFetch_options_refused now req ⟨ep, k1, ao⟩ up s hpath hopt ho',
        handleFetch_options_refused now req ⟨ep, k2, ao⟩ up s hpath hopt ho']
      exact ⟨rfl, rfl, rfl, rfl, by simp, by simp⟩
  · by_cases hpost : req.method = ("POST".toList)
    · by_cases ho : allowedOrigin req.origin ⟨ep, k1, ao⟩ = true
      · cases hrl : rateLimited now (clientIp req) s.rate with
        | mk limited rm =>
          cases limited with
          | true =>
            rw [handleFetch_limited now req ⟨ep, k1, ao⟩ up s rm hpath hpost ho hrl,
              handleFetch_limited now req ⟨ep, k2, ao⟩ up s rm hpath hpost ho hrl]
            exact ⟨rfl, rfl, rfl, rfl, by simp, by simp⟩
          | false =>
            cases hb : req.body with
            | none =>
              rw [handleFetch_bad_json now req ⟨ep, k1, ao⟩ up s rm hpath hpost ho hrl hb,
                handleFetch_bad_json now req ⟨ep, k2, ao⟩ up s rm hpath hpost ho hrl hb]
              exact ⟨rfl, rfl, rfl, rfl, by simp, by simp⟩
            | some b =>
              cases hv : validateBody b with
              | error e =>
                rw [handleFetch_invalid now req ⟨ep, k1, ao⟩ up s rm b e hpath hpost ho hrl hb hv,
                  handleFetch_invalid now req ⟨ep, k2, ao⟩ up s rm b e hpath hpost ho hrl hb hv]
                exact ⟨rfl, rfl, rfl, rfl, by simp, by simp⟩
              | ok p =>
                cases hgi : getIdempotent now p.requestId s.idem with
                | mk found im =>
                  cases found with
                  | some r =>
                    rw [handleFetch_duplicate now req ⟨ep, k1, ao⟩ up s rm b p r im hpath hpost
                        ho hrl hb hv hgi,
                      handleFetch_duplicate now req ⟨ep, k2, ao⟩ up s rm b p r im hpath hpost
                        ho hrl hb hv hgi]
                    exact ⟨rfl, rfl, rfl, rfl, by simp, by simp⟩
                  | none =>
                    cases up with
                    | ok =>
                      rw [handleFetch_dispatch_ok now req ⟨ep, k1, ao⟩ s rm b p im hpath hpost
                          ho hrl hb hv hgi,
                        handleFetch_dispatch_ok now req ⟨ep, k2, ao⟩ s rm b p im hpath hpost
                          ho hrl hb hv hgi]
                      exact ⟨rfl, rfl, rfl, by simp [stripAuth, outboundFor],
                        by simp [outboundFor], by simp [outboundFor]⟩
                    | httpFail =>
                      rw [handleFetch_dispatch_httpFail now req ⟨ep, k1, ao⟩ s rm b p im hpath
                          hpost ho hrl hb hv hgi,
                        handleFetch_dispatch_httpFail now req ⟨ep, k2, ao⟩ s rm b p im hpath
                          hpost ho hrl hb hv hgi]
                      exact ⟨rfl, rfl, rfl, by simp [stripAuth, outboundFor],
                        by simp [outboundFor], by simp [outboundFor]⟩
                    | throws =>
                      rw [handleFetch_dispatch_throws now req ⟨ep, k1, ao⟩ s rm b p im hpath
                          hpost ho hrl hb hv hgi,
                        handleFetch_dispatch_throws now req ⟨ep, k2, ao⟩ s rm b p im hpath
                          hpost ho hrl hb hv hgi]
                      exact ⟨rfl, rfl, rfl, by simp [stripAuth, outboundFor],
                        by simp [outboundFor], by simp [outboundFor]⟩
      · have ho' : allowedOrigin req.origin ⟨ep, k1, ao⟩ = false := by
          simpa using ho
        rw [handleFetch_post_refused now req ⟨ep, k1, ao⟩ up s hpath hpost ho',
          handleFetch_post_refused now req ⟨ep, k2, ao⟩ up s hpath hpost ho']
        exact ⟨rfl, rfl, rfl, rfl, by simp, by simp⟩
    · rw [handleFetch_bad_method now req ⟨ep, k1, ao⟩ up s hpath hopt hpost,
        handleFetch_bad_method now req ⟨ep, k2, ao⟩ up s hpath hopt hpost]
      exact ⟨rfl, rfl, rfl, rfl, by simp, by simp⟩

theorem allowedOrigin_false_of_no_list (origin : Option JStr) (env : Env)
    (h : getAllowedOrigins env = []) : allowedOrigin origin env = false := by
  cases origin with
  | none => rfl
  | some o =>
    show (if o.isEmpty then false else (getAllowedOrigins env).contains o) = false
    rw [h]
    by_cases he : o.isEmpty
    · rw [if_pos he]
    · rw [if_neg he]
      rfl

/-- Claim C10: if ALLOWED_ORIGINS is unset, empty, or made only of commas
and whitespace, the derived allow-list is empty, and every OPTIONS and
every POST to /contact is answered 403 "Origin not allowed." with the
state untouched and nothing dispatched — the endpoint is closed, not
open, under missing configuration. -/
theorem closed_when_unconfigured (env : Env)
    (h : ∀ e ∈ splitComma (env.ALLOWED_ORIGINS.getD []), trim e = []) :
    getAllowedOrigins env = [] ∧
    ∀ (now : Nat) (req : Request) (up : UpstreamOutcome) (s : WState),
      req.path = ("/contact".toList) →
      (req.method = ("OPTIONS".toList) ∨ req.method = ("POST".toList)) →
      (handleFetch now req env up s).resp.status = 403 ∧
      (handleFetch now req env up s).resp.body = .err originMsg ∧
      (handleFetch now req env up s).state = s ∧
      (handleFetch now req env up s).sent = [] := by
  have hempty : getAllowedOrigins env = [] := by
    unfold getAllowedOrigins
    rw [List.filter_eq_nil_iff]
    intro x hx
    obtain ⟨e, he, rfl⟩ := List.mem_map.mp hx
    rw [h e he]
    simp
  refine ⟨hempty, ?_⟩
  intro now req up s hpath hme
  have ho := allowedOrigin_false_of_no_list req.origin env hempty
  rcases hme with hme | hme
  · rw [handleFetch_options_refused now req env up s hpath hme ho]
    exact ⟨rfl, rfl, rfl, rfl⟩
  · rw [handleFetch_post_refused now req env up s hpath hme ho]
    exact ⟨rfl, rfl, rfl, rfl⟩

/-- Witness for C10 at concrete inputs: with ALLOWED_ORIGINS set to
" , ,", both the preflight and the POST from some origin get 403. -/
theorem closed_when_unconfigured_witness :
    getAllowedOrigins ⟨("e".toList), ("k".toList), some (" , ,".toList)⟩ = [] ∧
    (handleFetch 0 ⟨("/contact".toList), ("OPTIONS".toList),
        some ("https://site.example".toList), none, none⟩
        ⟨("e".toList), ("k".toList), some (" , ,".toList)⟩ .ok sampleState).resp.status = 403 ∧
    (handleFetch 0 sampleReq ⟨("e".toList), ("k".toList), some (" , ,".toList)⟩ .ok
        sampleState).resp.status = 403 := by
  have h := closed_when_unconfigured ⟨("e".toList), ("k".toList), some (" , ,".toList)⟩
    (by decide)
  exact ⟨h.1,
    (h.2 0 ⟨("/contact".toList), ("OPTIONS".toList), some ("https://site.example".toList),
      none, none⟩ .ok sampleState rfl (Or.inl rfl)).1,
    (h.2 0 sampleReq .ok sampleState rfl (Or.inr rfl)).1⟩

/-- Claim C1: a first valid POST with a fresh requestId that succeeds
upstream is answered 200 accepted and dispatched once; a second
submission with the same requestId within the 10-minute TTL is answered
200 duplicate with no upstream dispatch and the record kept; after the
TTL a lookup finds no record — the expired record is removed by the
lookup itself — and a third submission is dispatched upstream again. -/
theorem idempotent_replay (t0 t1 t2 : Nat) (req : Request) (env : Env) (s0 : WState)
    (b : JsValue) (p : Payload) (up2 up3 : UpstreamOutcome)
    (hpath : req.path = ("/contact".toList)) (hm : req.method = ("POST".toList))
    (ho : allowedOrigin req.origin env = true)
    (hb : req.body = some b) (hv : validateBody b = .ok p)
    (hrate0 : s0.rate (clientIp req) = none) (hidem0 : s0.idem p.requestId = none)
    (ht1 : t1 ≤ t0 + IDEMPOTENCY_TTL_MS) (ht2 : t0 + IDEMPOTENCY_TTL_MS < t2) :
    ∃ (m1 : JMap Bucket) (i1 : JMap IdemRecord) (m2 : JMap Bucket),
      handleFetch t0 req env .ok s0 =
        ⟨json (.okStatus acceptedStatus p.requestId) 200 (cors (req.origin.getD [])),
          ⟨m1, i1⟩, [outboundFor env p]⟩ ∧
      i1 p.requestId = some ⟨acceptedStatus, t0 + IDEMPOTENCY_TTL_MS⟩ ∧
      handleFetch t1 req env up2 ⟨m1, i1⟩ =
        ⟨json (.okStatus duplicateStatus p.requestId) 200 (cors (req.origin.getD [])),
          ⟨m2, i1⟩, []⟩ ∧
      getIdempotent t2 p.requestId i1 = (none, mapDel i1 p.requestId) ∧
      mapDel i1 p.requestId p.requestId = none ∧
      (handleFetch t2 req env up3 ⟨m2, i1⟩).sent = [outboundFor env p] := by
  have hrl1 : rateLimited t0 (clientIp req) s0.rate =
      (false, mapSet s0.rate (clientIp req) ⟨1, t0 + RATE_WINDOW_MS⟩) :=
    rateLimited_none t0 (clientIp req) s0.rate hrate0
  have hgi1 : getIdempotent t0 p.requestId s0.idem = (none, s0.idem) :=
    getIdempotent_none t0 p.requestId s0.idem hidem0
  have e1 := handleFetch_dispatch_ok t0 req env s0
    (mapSet s0.rate (clientIp req) ⟨1, t0 + RATE_WINDOW_MS⟩) b p s0.idem
    hpath hm ho hrl1 hb hv hgi1
  have hl1 : setIdempotent t0 p.requestId acceptedStatus s0.idem p.requestId =
      some ⟨acceptedStatus, t0 + IDEMPOTENCY_TTL_MS⟩ :=
    mapSet_self s0.idem p.requestId ⟨acceptedStatus, t0 + IDEMPOTENCY_TTL_MS⟩
  have hm1l : mapSet s0.rate (clientIp req) ⟨1, t0 + RATE_WINDOW_MS⟩ (clientIp req) =
      some ⟨1, t0 + RATE_WINDOW_MS⟩ := mapSet_self _ _ _
  obtain ⟨b2, hrl2, hb21, hb22⟩ := rateLimited_low t1 (clientIp req)
    (mapSet s0.rate (clientIp req) ⟨1, t0 + RATE_WINDOW_MS⟩) 1 (t0 + RATE_WINDOW_MS)
    hm1l (by decide)
  have hgi2 : getIdempotent t1 p.requestId
      (setIdempotent t0 p.requestId acceptedStatus s0.idem) =
      (some ⟨acceptedStatus, t0 + IDEMPOTENCY_TTL_MS⟩,
        setIdempotent t0 p.requestId acceptedStatus s0.idem) :=
    getIdempotent_live t1 p.requestId _ acceptedStatus (t0 + IDEMPOTENCY_TTL_MS) hl1 ht1
  have e2 := handleFetch_duplicate t1 req env up2
    ⟨mapSet s0.rate (clientIp req) ⟨1, t0 + RATE_WINDOW_MS⟩,
      setIdempotent t0 p.requestId acceptedStatus s0.idem⟩
    (mapSet (mapSet s0.rate (clientIp req) ⟨1, t0 + RATE_WINDOW_MS⟩) (clientIp req) b2)
    b p ⟨acceptedStatus, t0 + IDEMPOTENCY_TTL_MS⟩
    (setIdempotent t0 p.requestId acceptedStatus s0.idem)
    hpath hm ho hrl2 hb hv hgi2
  have hgi3 : getIdempotent t2 p.requestId
      (setIdempotent t0 p.requestId acceptedStatus s0.idem) =
      (none, mapDel (setIdempotent t0 p.requestId acceptedStatus s0.idem) p.requestId) :=
    getIdempotent_expired t2 p.requestId _ acceptedStatus (t0 + IDEMPOTENCY_TTL_MS) hl1 ht2
  have hm2l : mapSet (mapSet s0.rate (clientIp req) ⟨1, t0 + RATE_WINDOW_MS⟩)
      (clientIp req) b2 (clientIp req) = some b2 := mapSet_self _ _ _
  have hcnt : b2.count < RATE_MAX := by
    show b2.count < 5
    omega
  obtain ⟨b3, hrl3, _, _⟩ := rateLimited_low t2 (clientIp req)
    (mapSet (mapSet s0.rate (clientIp req) ⟨1, t0 + RATE_WINDOW_MS⟩) (clientIp req) b2)
    b2.count b2.resetAt (by rw [hm2l]) hcnt
  refine ⟨mapSet s0.rate (clientIp req) ⟨1, t0 + RATE_WINDOW_MS⟩,
    setIdempotent t0 p.requestId acceptedStatus s0.idem,
    mapSet (mapSet s0.rate (clientIp req) ⟨1, t0 + RATE_WINDOW_MS⟩) (clientIp req) b2,
    e1, hl1, e2, hgi3, mapDel_self _ _, ?_⟩
  cases up3 with
  | ok =>
    rw [handleFetch_dispatch_ok t2 req env _ _ b p _ hpath hm ho hrl3 hb hv hgi3]
  | httpFail =>
    rw [handleFetch_dispatch_httpFail t2 req env _ _ b p _ hpath hm ho hrl3 hb hv hgi3]
  | throws =>
    rw [handleFetch_dispatch_throws t2 req env _ _ b p _ hpath hm ho hrl3 hb hv hgi3]

/-- Witness for C1 at concrete inputs: the sample POST at time 0, again at
time 1000, and again at time 600001 (past the 600000 ms TTL). -/
theorem idempotent_replay_witness :
    ∃ (m1 : JMap Bucket) (i1 : JMap IdemRecord) (m2 : JMap Bucket),
      handleFetch 0 sampleReq sampleEnv .ok sampleState =
        ⟨json (.okStatus acceptedStatus samplePayload.requestId) 200
          (cors (sampleReq.origin.getD [])), ⟨m1, i1⟩,
          [outboundFor sampleEnv samplePayload]⟩ ∧
      i1 samplePayload.requestId = some ⟨acceptedStatus, 0 + IDEMPOTENCY_TTL_MS⟩ ∧
      handleFetch 1000 sampleReq sampleEnv .ok ⟨m1, i1⟩ =
        ⟨json (.okStatus duplicateStatus samplePayload.requestId) 200
          (cors (sampleReq.origin.getD [])), ⟨m2, i1⟩, []⟩ ∧
      getIdempotent 600001 samplePayload.requestId i1 =
        (none, mapDel i1 samplePayload.requestId) ∧
      mapDel i1 samplePayload.requestId samplePayload.requestId = none ∧
      (handleFetch 600001 sampleReq sampleEnv .ok ⟨m2, i1⟩).sent =
        [outboundFor sampleEnv samplePayload] :=
  idempotent_replay 0 1000 600001 sampleReq sampleEnv sampleState sampleBody samplePayload
    .ok .ok rfl rfl rfl rfl rfl rfl rfl (by decide) (by decide)
